import Mathlib

/-!
# CryptoPulse — formal verification of the specification against the source

Shallow embedding of the parts of the `cryptopulse` repository that the
frozen claims C1–C10 are about:

* `data_storage.py` (`DataStorage.update_pnl_data`, `update_stats_data`),
* `queue_manager.py` + `message_processor.py` (the trade queue's dedup
  discipline and enqueue gating),
* `trading_engine.py` (`TradingEngine.queue_trade`, `_execute_trade`),
* `modules/binance_trader.py` (`BinanceTrader.execute_trade` order sides),
* `sentiment_validator.py` (`SentimentValidator.validate_response` and its
  helpers),
* `market_cap_tracker.py` (`is_stablecoin`, `get_top_market_cap`,
  `load_top_market_cap`, `is_top_market_cap`).

Python `float`s are modelled exactly: a value is an explicit fraction
(`Frac`, an integer numerator over a positive integer denominator, kept
unnormalized so that every arithmetic step is pure integer arithmetic), and
`flDouble : Frac → Frac` rounds an exact rational to the nearest IEEE-754
binary64 value (53-bit significand, round-to-nearest, ties-to-even).  Every
float operation of the source (`+`, `*`, `/`, literals, `round(x, 2)`) is
embedded as the exact operation followed by `flDouble`, which is IEEE
semantics for the normal range of magnitudes arising in these claims (no
overflow or subnormals).  Strings are modelled as `List Char`; the regular
expressions of the source are translated into explicit scanners with the
same search semantics.
-/

namespace CryptoPulse

/-- Trade direction, derived from the sign of the extracted sentiment
(`message_processor.py` line 120). -/
inductive Direction where
  | LONG
  | SHORT
deriving DecidableEq, Repr

/-- Order side of a Binance futures market order
(`modules/binance_trader.py` lines 95–109: `side="BUY"` / `side="SELL"`). -/
inductive Side where
  | BUY
  | SELL
deriving DecidableEq, Repr

/-! ## Exact fractions and the binary64 model for Python floats -/

/-- An exact rational as an explicit fraction.  All fractions built by this
development have a positive denominator; the representation is not reduced,
so all operations are plain integer arithmetic. -/
structure Frac where
  num : ℤ
  den : ℤ
deriving DecidableEq, Repr

namespace Frac

def ofInt (n : ℤ) : Frac := ⟨n, 1⟩

def add (a b : Frac) : Frac := ⟨a.num * b.den + b.num * a.den, a.den * b.den⟩

def mul (a b : Frac) : Frac := ⟨a.num * b.num, a.den * b.den⟩

def neg (a : Frac) : Frac := ⟨-a.num, a.den⟩

/-- Division, keeping the denominator positive when `b ≠ 0`. -/
def div (a b : Frac) : Frac :=
  if 0 ≤ b.num then ⟨a.num * b.den, a.den * b.num⟩
  else ⟨-(a.num * b.den), -(a.den * b.num)⟩

def abs (a : Frac) : Frac := ⟨(a.num.natAbs : ℤ), a.den⟩

/-- `a ≤ b` by cross multiplication (valid for positive denominators). -/
def le (a b : Frac) : Bool := decide (a.num * b.den ≤ b.num * a.den)

/-- `a < b` by cross multiplication (valid for positive denominators). -/
def lt (a b : Frac) : Bool := decide (a.num * b.den < b.num * a.den)

/-- Numeric equality by cross multiplication (valid for positive
denominators). -/
def beq (a b : Frac) : Bool := decide (a.num * b.den = b.num * a.den)

/-- Floor (valid for positive denominators): `Int.fdiv` rounds toward
`-∞`. -/
def floor (a : Frac) : ℤ := Int.fdiv a.num a.den

/-- The value of a fraction as a Mathlib rational, for readable theorem
statements. -/
def toRat (a : Frac) : ℚ := (a.num : ℚ) / (a.den : ℚ)

theorem le_iff_toRat (a b : Frac) (ha : 0 < a.den) (hb : 0 < b.den) :
    a.le b = true ↔ a.toRat ≤ b.toRat := by
  have ha' : (0 : ℚ) < (a.den : ℚ) := by exact_mod_cast ha
  have hb' : (0 : ℚ) < (b.den : ℚ) := by exact_mod_cast hb
  rw [le, decide_eq_true_eq, toRat, toRat, div_le_div_iff₀ ha' hb']
  constructor
  · intro h; exact_mod_cast h
  · intro h; exact_mod_cast h

theorem beq_iff_toRat (a b : Frac) (ha : 0 < a.den) (hb : 0 < b.den) :
    a.beq b = true ↔ a.toRat = b.toRat := by
  have ha' : (a.den : ℚ) ≠ 0 := by positivity
  have hb' : (b.den : ℚ) ≠ 0 := by positivity
  rw [beq, decide_eq_true_eq, toRat, toRat, div_eq_div_iff ha' hb']
  constructor
  · intro h; exact_mod_cast h
  · intro h; exact_mod_cast h

end Frac

/-- `2 ^ k` as an integer. -/
def pow2 (k : ℕ) : ℤ := ((2 ^ k : ℕ) : ℤ)

/-- Multiply a fraction by `2 ^ k` (for `k : ℤ` of either sign), keeping the
denominator positive. -/
def fscale (a : Frac) (k : ℤ) : Frac :=
  if 0 ≤ k then ⟨a.num * pow2 k.toNat, a.den⟩
  else ⟨a.num, a.den * pow2 (-k).toNat⟩

/-- Round a fraction (with positive denominator) to the nearest integer,
ties to even — the rounding rule of IEEE-754 round-to-nearest and of
Python's `round`. -/
def roundHalfEven (a : Frac) : ℤ :=
  let n := Frac.floor a
  let r := a.num - n * a.den
  if 2 * r < a.den then n
  else if a.den < 2 * r then n + 1
  else if n % 2 = 0 then n else n + 1

/-- Fuel-bounded floor of `log₂`; fuel 128 covers every magnitude that
occurs in this development. -/
def log2floorAux : ℕ → ℕ → ℕ
  | 0, _ => 0
  | fuel + 1, n => if n ≤ 1 then 0 else log2floorAux fuel (n / 2) + 1

def log2floor (n : ℕ) : ℕ := log2floorAux 128 n

/-- The binade exponent of a positive fraction `a`: the unique `e` with
`2^e ≤ a < 2^(e+1)` (for `2^(-128) ≤ a < 2^128`). -/
def flExp (a : Frac) : ℤ :=
  if Frac.le ⟨1, 1⟩ a then (log2floor (Frac.floor a).toNat : ℤ)
  else
    let b : Frac := ⟨a.den, a.num⟩
    let j := log2floor (Frac.floor b).toNat
    if b.num = pow2 j * b.den then -(j : ℤ) else -((j : ℤ) + 1)

/-- Round an exact fraction to the nearest IEEE-754 binary64 value (53-bit
significand, round-to-nearest, ties-to-even), as an exact fraction.  Models
a Python `float` holding that value, in the normal range. -/
def flDouble (x : Frac) : Frac :=
  if x.num = 0 then ⟨0, 1⟩
  else
    let a := Frac.abs x
    let e := flExp a
    let m := roundHalfEven (fscale a (52 - e))
    fscale ⟨if x.num < 0 then -m else m, 1⟩ (e - 52)

/-- Python float addition: exact sum, correctly rounded. -/
def flAdd (a b : Frac) : Frac := flDouble (Frac.add a b)

/-- Python float multiplication: exact product, correctly rounded. -/
def flMul (a b : Frac) : Frac := flDouble (Frac.mul a b)

/-- Python float division: exact quotient, correctly rounded. -/
def flDiv (a b : Frac) : Frac := flDouble (Frac.div a b)

/-- Python `round(x, 2)` on a float: the double nearest to the exact value
of `x` rounded to 2 decimal places with ties to even (CPython's `round` is
correctly rounded). -/
def pyRound2 (x : Frac) : Frac :=
  flDouble ⟨roundHalfEven (Frac.mul x ⟨100, 1⟩), 100⟩

/-- Sanity check: the double nearest `10.555` is
`1485484189590487 / 2^47` (slightly below `10.555`). -/
theorem flDouble_10555 :
    Frac.beq (flDouble ⟨10555, 1000⟩) ⟨1485484189590487, 140737488355328⟩ = true := by
  decide

/-- Sanity check: the double nearest `2.2` is `2476979795053773 / 2^50`. -/
theorem flDouble_2_2 :
    Frac.beq (flDouble ⟨22, 10⟩) ⟨2476979795053773, 1125899906842624⟩ = true := by
  decide

/-- Sanity check: the double nearest `0.7` is `3152519739159347 / 2^52`. -/
theorem flDouble_0_7 :
    Frac.beq (flDouble ⟨7, 10⟩) ⟨3152519739159347, 4503599627370496⟩ = true := by
  decide

/-- Sanity check: Python `round(10.555, 2) == 10.55` — the double `10.555`
is slightly below the decimal tie, so it rounds DOWN, and the result is the
double nearest `10.55`, namely `2969561004297421 / 2^48`. -/
theorem pyRound2_10555 :
    Frac.beq (pyRound2 (flDouble ⟨10555, 1000⟩)) ⟨2969561004297421, 281474976710656⟩
      = true := by
  decide

/-! ## Persistence layer (`data_storage.py`) -/

/-- `DataStorage.update_pnl_data` (`data_storage.py` lines 26–32): the store
maps chat-id strings to floats; the single `(key, value)` item of `new_data`
is summed into the existing entry (`data.get(key, 0)`, i.e. default `0`) and
the result is rounded to 2 decimal places (`round(..., 2)`).  The JSON
round trip through `save_data`/`load_data` preserves doubles exactly and is
modelled as the identity. -/
def update_pnl_data (data : String → Option Frac) (key : String) (value : Frac) :
    String → Option Frac :=
  fun k =>
    if k = key then some (pyRound2 (flAdd ((data key).getD ⟨0, 1⟩) value))
    else data k

/-- The stats store (`data_storage.py` lines 34–53).  The source keeps a
JSON object whose four keys are read with default `0`
(`data.get("Maximum Gain", 0)` etc.); starting from the empty store this is
equivalent to starting from the all-zero record. -/
structure StatsData where
  maxGain : Frac
  maxDrawdown : Frac
  avgGain : Frac
  totalTrades : ℕ
deriving DecidableEq, Repr

/-- The empty stats store (`{}` on disk: every key defaults to `0`). -/
def statsEmpty : StatsData := ⟨⟨0, 1⟩, ⟨0, 1⟩, ⟨0, 1⟩, 0⟩

/-- Python `max(a, b)` on floats: returns `b` only when `a < b`. -/
def fmax (a b : Frac) : Frac := if Frac.lt a b then b else a

/-- Python `min(a, b)` on floats: returns `b` only when `b < a`. -/
def fmin (a b : Frac) : Frac := if Frac.lt b a then b else a

/-- `DataStorage.update_stats_data` (`data_storage.py` lines 34–53):
if `pnl >= 0` the Maximum Gain becomes `round(max(prev, pnl), 2)`,
otherwise the Maximum Drawdown becomes `round(min(prev, pnl), 2)`;
the Average Gain is recomputed incrementally as
`round(((prev_avg * n) + pnl) / (n + 1), 2)` and the trade count is
incremented. -/
def update_stats_data (d : StatsData) (pnl : Frac) : StatsData :=
  { maxGain :=
      if Frac.le ⟨0, 1⟩ pnl then pyRound2 (fmax d.maxGain pnl) else d.maxGain
    maxDrawdown :=
      if Frac.le ⟨0, 1⟩ pnl then d.maxDrawdown
      else pyRound2 (fmin d.maxDrawdown pnl)
    avgGain :=
      pyRound2 (flDiv (flAdd (flMul d.avgGain (Frac.ofInt d.totalTrades)) pnl)
        (Frac.ofInt (d.totalTrades + 1)))
    totalTrades := d.totalTrades + 1 }

/-- C5 (counterexample): starting from the empty PnL store and applying the
updates `{"123": 10.555}` then `{"123": -2.2}` (the Python doubles denoted
by those literals), the stored value for `"123"` is NOT `8.36`: it differs
both from the exact decimal `8.36` and from the double denoted `8.36`.
The first rounding acts on the double `10.555`, whose exact value is
slightly below the decimal tie `10.555`, so `round(10.555, 2) == 10.55`
(not `10.56`), and the final value is the double `8.35`. -/
theorem claim_C5_counterexample :
    ((update_pnl_data (update_pnl_data (fun _ => none) "123"
        (flDouble ⟨10555, 1000⟩)) "123" (flDouble ⟨-22, 10⟩)) "123").isSome = true
      ∧ Frac.beq (((update_pnl_data (update_pnl_data (fun _ => none) "123"
          (flDouble ⟨10555, 1000⟩)) "123" (flDouble ⟨-22, 10⟩)) "123").getD ⟨0, 1⟩)
          ⟨836, 100⟩ = false
      ∧ Frac.beq (((update_pnl_data (update_pnl_data (fun _ => none) "123"
          (flDouble ⟨10555, 1000⟩)) "123" (flDouble ⟨-22, 10⟩)) "123").getD ⟨0, 1⟩)
          (flDouble ⟨836, 100⟩) = false := by
  decide

/-- C5 (amended): the PnL update sums the new delta into the existing
per-chat value (default `0`) and rounds to 2 decimal places after each
individual update; starting from the empty store, the updates
`{"123": 10.555}` then `{"123": -2.2}` leave the stored value for `"123"`
equal to the double `8.35` (under IEEE-754 binary64 arithmetic;
the spec's `8.36` would require exact decimal arithmetic). -/
theorem claim_C5_amended :
    ((update_pnl_data (update_pnl_data (fun _ => none) "123"
        (flDouble ⟨10555, 1000⟩)) "123" (flDouble ⟨-22, 10⟩)) "123").isSome = true
      ∧ Frac.beq (((update_pnl_data (update_pnl_data (fun _ => none) "123"
          (flDouble ⟨10555, 1000⟩)) "123" (flDouble ⟨-22, 10⟩)) "123").getD ⟨0, 1⟩)
          (flDouble ⟨835, 100⟩) = true := by
  decide

/-- C6: recording the PnL values `10, -5, 20` in sequence from the empty
stats store yields Total No. of Trades `3`, Average Gain the double denoted
`8.33` (each update recomputes `round((prev_avg * n + pnl) / (n + 1), 2)`),
Maximum Gain `20` and Maximum Drawdown `-5`. -/
theorem claim_C6_stats_running_average :
    (update_stats_data (update_stats_data
        (update_stats_data statsEmpty ⟨10, 1⟩) ⟨-5, 1⟩) ⟨20, 1⟩).totalTrades = 3
      ∧ Frac.beq (update_stats_data (update_stats_data
          (update_stats_data statsEmpty ⟨10, 1⟩) ⟨-5, 1⟩) ⟨20, 1⟩).avgGain
          (flDouble ⟨833, 100⟩) = true
      ∧ Frac.beq (update_stats_data (update_stats_data
          (update_stats_data statsEmpty ⟨10, 1⟩) ⟨-5, 1⟩) ⟨20, 1⟩).maxGain
          ⟨20, 1⟩ = true
      ∧ Frac.beq (update_stats_data (update_stats_data
          (update_stats_data statsEmpty ⟨10, 1⟩) ⟨-5, 1⟩) ⟨20, 1⟩).maxDrawdown
          ⟨-5, 1⟩ = true := by
  decide

/-! ## Trade queue and dedup discipline
(`queue_manager.py` + `message_processor.py`) -/

/-- State owned by `QueueManager` (`queue_manager.py` lines 6–10): the FIFO
`symbol_queue` (whose items carry a symbol; `None` is the shutdown sentinel
put by `main.py` line 84), and the `pending_symbols` / `processing_symbols`
sets. -/
structure QMState where
  pending : Finset String
  processing : Finset String
  queue : List (Option String)

/-- The operator-visible outcome of submitting one symbol to
`MessageProcessor.process_trading_symbols` (`message_processor.py`
lines 67–95). -/
inductive EnqueueNotice where
  | notFound
  | topCapSkip
  | alreadyQueued
  | queued
deriving DecidableEq, Repr

/-- One per-symbol pass of `MessageProcessor.process_trading_symbols`
(`message_processor.py` lines 74–95) followed by `QueueManager.add_to_queue`
(`queue_manager.py` lines 16–19): unavailable symbols are collected as "not
found"; a top-market-cap symbol is skipped; a symbol already pending or
processing (`is_symbol_queued_or_processing`, lines 12–14) is skipped with
an "already in queue or being processed" notice; otherwise the symbol is
added to `pending_symbols` and put on the queue. -/
def processSymbolStep (available topCap : String → Bool) (s : QMState)
    (sym : String) : QMState × EnqueueNotice :=
  if available sym then
    if topCap sym then (s, .topCapSkip)
    else if sym ∈ s.processing ∨ sym ∈ s.pending then (s, .alreadyQueued)
    else ({ s with pending := insert sym s.pending,
                   queue := s.queue ++ [some sym] }, .queued)
  else (s, .notFound)

/-- The atomic transitions of the queue system under the cooperative
scheduler (no `await` separates the set mutations inside each transition):

* `enqueue` — the orchestrator submits one symbol (above);
* `claimItem` — a worker dequeues a symbol item and moves the symbol from
  `pending` to `processing` (`queue_manager.py` lines 24–32);
* `sentinelItem` — a worker dequeues the `None` sentinel and exits
  (lines 24–26), leaving both sets unchanged;
* `finish` — the trade cycle ends (successfully or with an error) and the
  `finally` block removes the symbol from `processing` (lines 34–39);
* `putSentinel` — shutdown puts a `None` sentinel on the queue
  (`main.py` line 84). -/
inductive QMStep (available topCap : String → Bool) : QMState → QMState → Prop where
  | enqueue (s : QMState) (sym : String) :
      QMStep available topCap s (processSymbolStep available topCap s sym).1
  | claimItem (s : QMState) (sym : String) (rest : List (Option String))
      (h : s.queue = some sym :: rest) :
      QMStep available topCap s
        ⟨s.pending.erase sym, insert sym s.processing, rest⟩
  | sentinelItem (s : QMState) (rest : List (Option String))
      (h : s.queue = none :: rest) :
      QMStep available topCap s ⟨s.pending, s.processing, rest⟩
  | finish (s : QMState) (sym : String) (h : sym ∈ s.processing) :
      QMStep available topCap s ⟨s.pending, s.processing.erase sym, s.queue⟩
  | putSentinel (s : QMState) :
      QMStep available topCap s ⟨s.pending, s.processing, s.queue ++ [none]⟩

/-- States reachable from the freshly constructed `QueueManager`
(`queue_manager.py` lines 6–10: empty sets, empty queue). -/
inductive QMReachable (available topCap : String → Bool) : QMState → Prop where
  | init : QMReachable available topCap ⟨∅, ∅, []⟩
  | step {s t : QMState} : QMReachable available topCap s →
      QMStep available topCap s t → QMReachable available topCap t

/-- The symbols currently on the queue (sentinels carry no symbol). -/
def queueSyms (s : QMState) : List String := s.queue.filterMap id

/-- The dedup invariant of the trade queue: no symbol occurs twice on the
queue, `pending_symbols` is exactly the set of symbols on the queue (a
queued symbol and its `pending` mark are one in-flight record), and no
symbol is simultaneously pending and processing — hence no symbol has two
trade cycles concurrently in flight. -/
def QMInv (s : QMState) : Prop :=
  (queueSyms s).Nodup
    ∧ (∀ sym : String, sym ∈ queueSyms s ↔ sym ∈ s.pending)
    ∧ ∀ sym : String, ¬(sym ∈ s.pending ∧ sym ∈ s.processing)

/-- Enqueuing a symbol that is already pending or processing (or otherwise
rejected) leaves the state unchanged. -/
theorem processSymbolStep_noop (available topCap : String → Bool)
    (s : QMState) (sym : String) (h : sym ∈ s.pending ∨ sym ∈ s.processing) :
    (processSymbolStep available topCap s sym).1 = s := by
  unfold processSymbolStep
  split
  · split
    · rfl
    · split
      · rfl
      · next h2 => exact absurd h (by tauto)
  · rfl

/-- The "already in queue" notice: for an available, non-top-cap symbol that
is already pending or processing, the enqueue emits `alreadyQueued`. -/
theorem processSymbolStep_already_notice (available topCap : String → Bool)
    (s : QMState) (sym : String) (hav : available sym = true)
    (htc : topCap sym = false) (h : sym ∈ s.pending ∨ sym ∈ s.processing) :
    (processSymbolStep available topCap s sym).2 = .alreadyQueued := by
  unfold processSymbolStep
  rw [hav, htc]
  simp only [if_true, Bool.false_eq_true, if_false]
  split
  · rfl
  · next h2 => exact absurd h (by tauto)

/-- The dedup invariant is preserved by every transition. -/
theorem qmInv_step {available topCap : String → Bool} {s t : QMState}
    (hinv : QMInv s) (hstep : QMStep available topCap s t) : QMInv t := by
  obtain ⟨hnd, hiff, hdisj⟩ := hinv
  cases hstep with
  | enqueue sym =>
    unfold processSymbolStep
    split
    · split
      · exact ⟨hnd, hiff, hdisj⟩
      · split
        · exact ⟨hnd, hiff, hdisj⟩
        · next hmem =>
          push_neg at hmem
          obtain ⟨hproc, hpend⟩ := hmem
          have hq : queueSyms ⟨insert sym s.pending, s.processing,
              s.queue ++ [some sym]⟩ = queueSyms s ++ [sym] := by
            simp [queueSyms, List.filterMap_append]
          refine ⟨?_, ?_, ?_⟩
          · rw [hq, List.nodup_append]
            refine ⟨hnd, List.nodup_singleton sym, ?_⟩
            intro x hx hx'
            rw [List.mem_singleton] at hx'
            subst hx'
            exact hpend ((hiff x).mp hx)
          · intro x
            rw [hq, List.mem_append, List.mem_singleton]
            show _ ↔ x ∈ insert sym s.pending
            rw [Finset.mem_insert]
            constructor
            · rintro (hx | rfl)
              · exact Or.inr ((hiff x).mp hx)
              · exact Or.inl rfl
            · rintro (rfl | hx)
              · exact Or.inr rfl
              · exact Or.inl ((hiff x).mpr hx)
          · intro x hx
            obtain ⟨hx1, hx2⟩ := hx
            rw [show (⟨insert sym s.pending, s.processing, s.queue ++ [some sym]⟩ :
                QMState).pending = insert sym s.pending from rfl,
              Finset.mem_insert] at hx1
            rcases hx1 with hx1 | hx1
            · subst hx1; exact hproc hx2
            · exact hdisj x ⟨hx1, hx2⟩
    · exact ⟨hnd, hiff, hdisj⟩
  | claimItem sym rest h =>
    have hqs : queueSyms s = sym :: rest.filterMap id := by
      simp [queueSyms, h]
    rw [hqs] at hnd hiff
    have hsymrest : sym ∉ rest.filterMap id := (List.nodup_cons.mp hnd).1
    have hndrest : (rest.filterMap id).Nodup := (List.nodup_cons.mp hnd).2
    refine ⟨hndrest, ?_, ?_⟩
    · intro x
      simp only [queueSyms]
      constructor
      · intro hx
        refine Finset.mem_erase.mpr ⟨?_, (hiff x).mp (List.mem_cons_of_mem _ hx)⟩
        rintro rfl
        exact hsymrest hx
      · intro hx
        obtain ⟨hne, hx⟩ := Finset.mem_erase.mp hx
        rcases List.mem_cons.mp ((hiff x).mpr hx) with h1 | h1
        · exact absurd h1 hne
        · exact h1
    · intro x hx
      obtain ⟨hx1, hx2⟩ := hx
      obtain ⟨hne, hx1⟩ := Finset.mem_erase.mp hx1
      rcases Finset.mem_insert.mp hx2 with h2 | h2
      · exact hne h2
      · exact hdisj x ⟨hx1, h2⟩
  | sentinelItem rest h =>
    have hqs : queueSyms s = rest.filterMap id := by simp [queueSyms, h]
    rw [hqs] at hnd hiff
    exact ⟨hnd, hiff, hdisj⟩
  | finish sym h =>
    refine ⟨hnd, hiff, ?_⟩
    intro x hx
    obtain ⟨hx1, hx2⟩ := hx
    exact hdisj x ⟨hx1, (Finset.mem_erase.mp hx2).2⟩
  | putSentinel =>
    have hqs : queueSyms ⟨s.pending, s.processing, s.queue ++ [none]⟩
        = queueSyms s := by
      simp [queueSyms, List.filterMap_append]
    exact ⟨by rw [hqs]; exact hnd, by intro x; rw [hqs]; exact hiff x, hdisj⟩

/-- C1: every reachable state of the queue manager satisfies the dedup
invariant — the queue holds no symbol twice, `pending` is exactly the set of
queued symbols, and no symbol is pending and processing at the same time
(so no symbol ever has two trade cycles concurrently in flight) — and
enqueuing a symbol that is already pending or processing is a no-op which,
for an available non-top-cap symbol, yields the "already in queue or being
processed" notice. -/
theorem claim_C1_dedup_invariant (available topCap : String → Bool)
    (s : QMState) (h : QMReachable available topCap s) :
    QMInv s
      ∧ (∀ sym : String, sym ∈ s.pending ∨ sym ∈ s.processing →
          (processSymbolStep available topCap s sym).1 = s)
      ∧ (∀ sym : String, available sym = true → topCap sym = false →
          sym ∈ s.pending ∨ sym ∈ s.processing →
          (processSymbolStep available topCap s sym).2 = .alreadyQueued) := by
  refine ⟨?_, ?_, ?_⟩
  · induction h with
    | init =>
      refine ⟨List.nodup_nil, ?_, ?_⟩
      · intro sym
        simp [queueSyms]
      · intro sym hx
        simp at hx
    | step hr hstep ih => exact qmInv_step ih hstep
  · intro sym hmem
    exact processSymbolStep_noop available topCap s sym hmem
  · intro sym hav htc hmem
    exact processSymbolStep_already_notice available topCap s sym hav htc hmem

/-- C1 witness: the state reached by enqueuing `"BTCUSDT"` once from the
initial state is reachable and satisfies the invariant, and a second
enqueue before any worker claims it is a no-op with the "already" notice. -/
theorem claim_C1_dedup_invariant_witness :
    QMInv (processSymbolStep (fun _ => true) (fun _ => false) ⟨∅, ∅, []⟩ "BTCUSDT").1
      ∧ (∀ sym : String,
          sym ∈ (processSymbolStep (fun _ => true) (fun _ => false) ⟨∅, ∅, []⟩ "BTCUSDT").1.pending
            ∨ sym ∈ (processSymbolStep (fun _ => true) (fun _ => false) ⟨∅, ∅, []⟩ "BTCUSDT").1.processing →
          (processSymbolStep (fun _ => true) (fun _ => false)
            (processSymbolStep (fun _ => true) (fun _ => false) ⟨∅, ∅, []⟩ "BTCUSDT").1 sym).1
            = (processSymbolStep (fun _ => true) (fun _ => false) ⟨∅, ∅, []⟩ "BTCUSDT").1)
      ∧ (∀ sym : String, (fun _ => true : String → Bool) sym = true →
          (fun _ => false : String → Bool) sym = false →
          sym ∈ (processSymbolStep (fun _ => true) (fun _ => false) ⟨∅, ∅, []⟩ "BTCUSDT").1.pending
            ∨ sym ∈ (processSymbolStep (fun _ => true) (fun _ => false) ⟨∅, ∅, []⟩ "BTCUSDT").1.processing →
          (processSymbolStep (fun _ => true) (fun _ => false)
            (processSymbolStep (fun _ => true) (fun _ => false) ⟨∅, ∅, []⟩ "BTCUSDT").1 sym).2
            = .alreadyQueued) :=
  claim_C1_dedup_invariant (fun _ => true) (fun _ => false) _
    (QMReachable.step QMReachable.init (QMStep.enqueue ⟨∅, ∅, []⟩ "BTCUSDT"))

/-! ## Trading engine (`trading_engine.py`) -/

/-- State owned by `TradingEngine` (`trading_engine.py` lines 15–21). -/
structure TEState where
  pending : Finset String
  processing : Finset String
  queue : List String
deriving DecidableEq

/-- `TradingEngine.queue_trade` (`trading_engine.py` lines 68–95), returning
the new state and the boolean result: reject if the symbol is already
processing or pending; reject if `is_valid_symbol` fails; reject if
`not is_top_market_cap(symbol)` (line 82 — note the `not`); otherwise add
to `pending` and put on the queue, returning `True`. -/
def queue_trade (validSymbol topCap : String → Bool) (s : TEState)
    (sym : String) : TEState × Bool :=
  if sym ∈ s.processing ∨ sym ∈ s.pending then (s, false)
  else if validSymbol sym = false then (s, false)
  else if topCap sym = false then (s, false)
  else ({ s with pending := insert sym s.pending, queue := s.queue ++ [sym] },
    true)

/-- C2 (code evaluated at the failing input): with `"BTCUSDT"` the only
top-market-cap symbol and both symbols valid on the exchange,
`TradingEngine.queue_trade` ACCEPTS and enqueues the top-market-cap symbol
`"BTCUSDT"` and REJECTS the non-top-cap symbol `"SOLUSDT"` — the exact
inversion of the claimed (and policy-wide) top-market-cap exclusion, caused
by the `not` in `trading_engine.py` line 82. -/
theorem claim_C2_queue_trade_gate_inverted :
    (queue_trade (fun _ => true) (fun sym => sym == "BTCUSDT")
        ⟨∅, ∅, []⟩ "BTCUSDT").2 = true
      ∧ (queue_trade (fun _ => true) (fun sym => sym == "BTCUSDT")
          ⟨∅, ∅, []⟩ "BTCUSDT").1.pending = {"BTCUSDT"}
      ∧ (queue_trade (fun _ => true) (fun sym => sym == "BTCUSDT")
          ⟨∅, ∅, []⟩ "SOLUSDT").2 = false
      ∧ (queue_trade (fun _ => true) (fun sym => sym == "BTCUSDT")
          ⟨∅, ∅, []⟩ "SOLUSDT").1 = ⟨∅, ∅, []⟩ := by
  decide

/-! ## Order sides of a trade cycle -/

/-- Entry order side placed by `TradingEngine._execute_trade`
(`trading_engine.py` lines 134–137): `place_buy_order` for `'LONG'`,
`place_sell_order` otherwise. -/
def te_entrySide : Direction → Side
  | .LONG => .BUY
  | .SHORT => .SELL

/-- Exit order side placed by `TradingEngine._execute_trade`
(`trading_engine.py` lines 162–165): the opposite of the entry. -/
def te_exitSide : Direction → Side
  | .LONG => .SELL
  | .SHORT => .BUY

/-- Entry order side placed by `BinanceTrader.execute_trade`
(`modules/binance_trader.py` line 188): `place_buy_order` is called
unconditionally, for BOTH directions. -/
def bt_entrySide (_ : Direction) : Side := .BUY

/-- Exit order side placed by `BinanceTrader.execute_trade`
(`modules/binance_trader.py` line 215): `place_sell_order` unconditionally. -/
def bt_exitSide (_ : Direction) : Side := .SELL

/-- The entry side *printed* by `BinanceTrader.execute_trade`
(`modules/binance_trader.py` line 191):
`'Buy' if direction == 'LONG' else 'Sell'`. -/
def bt_entrySideLabel : Direction → String
  | .LONG => "Buy"
  | .SHORT => "Sell"

/-- C3 (code evaluated at the failing input): for a SHORT trade cycle,
`BinanceTrader.execute_trade` places a BUY entry order and a SELL exit
order while printing "Sell Order Executed" — contradicting both the claim
and its own output — whereas `TradingEngine._execute_trade` places the
direction-matching entry (BUY for LONG, SELL for SHORT) and the opposite
exit. -/
theorem claim_C3_short_entry_side :
    bt_entrySide .SHORT = .BUY
      ∧ bt_exitSide .SHORT = .SELL
      ∧ bt_entrySideLabel .SHORT = "Sell"
      ∧ te_entrySide .LONG = .BUY ∧ te_entrySide .SHORT = .SELL
      ∧ te_exitSide .LONG = .SELL ∧ te_exitSide .SHORT = .BUY := by
  decide

/-! ## Market capitalization tracker (`market_cap_tracker.py`) -/

/-- Python's substring test `needle in haystack` on strings. -/
def infixOf (needle : List Char) : List Char → Bool
  | [] => needle.isEmpty
  | c :: t => needle.isPrefixOf (c :: t) || infixOf needle t

/-- A coin object returned by the CoinGecko markets endpoint: its `symbol`
and `name` fields (`market_cap_tracker.py` lines 24–25). -/
structure Coin where
  symbol : List Char
  name : List Char
deriving DecidableEq, Repr

/-- `STABLECOIN_PATTERNS` (`market_cap_tracker.py` lines 13–17). -/
def STABLECOIN_PATTERNS : List (List Char) :=
  ["usd".toList, "usdt".toList, "usdc".toList, "busd".toList, "dai".toList,
   "tusd".toList, "usdd".toList, "usdp".toList, "gusd".toList, "husd".toList,
   "susd".toList, "nusd".toList, "cusd".toList, "musd".toList, "usdn".toList,
   "usdx".toList, "eurs".toList, "eurt".toList, "ceur".toList]

/-- `is_stablecoin` (`market_cap_tracker.py` lines 20–33): the coin's
lower-cased symbol or name contains one of the patterns as a substring. -/
def is_stablecoin (c : Coin) : Bool :=
  STABLECOIN_PATTERNS.any (fun p => infixOf p (c.symbol.map Char.toLower))
    || STABLECOIN_PATTERNS.any (fun p => infixOf p (c.name.map Char.toLower))

/-- The symbol format of `get_top_market_cap`
(`market_cap_tracker.py` line 60): the upper-cased base symbol with `USDT`
appended. -/
def formatTopSymbol (c : Coin) : List Char :=
  c.symbol.map Char.toUpper ++ "USDT".toList

/-- The accumulation loop of `get_top_market_cap`
(`market_cap_tracker.py` lines 57–62): append each non-stablecoin coin's
formatted symbol, breaking once the accumulated count reaches `N`;
`count` is the number of symbols accumulated so far. -/
def topAccum (N : ℕ) : List Coin → ℕ → List (List Char)
  | [], _ => []
  | c :: rest, count =>
    if is_stablecoin c then topAccum N rest count
    else
      formatTopSymbol c ::
        (if N ≤ count + 1 then [] else topAccum N rest (count + 1))

/-- `get_top_market_cap` (`market_cap_tracker.py` lines 36–64) applied to a
successfully decoded endpoint response `data`: the loop above followed by
the final `[:TOP_N_MARKETCAP]` slice (line 64). -/
def get_top_market_cap (N : ℕ) (data : List Coin) : List (List Char) :=
  (topAccum N data 0).take N

/-- The loop is the first `N - count` formatted non-stablecoin symbols. -/
theorem topAccum_eq (N : ℕ) (data : List Coin) :
    ∀ count : ℕ, count < N →
      topAccum N data count
        = ((data.filter (fun c => !is_stablecoin c)).map formatTopSymbol).take
            (N - count) := by
  induction data with
  | nil => intro count _; simp [topAccum]
  | cons c rest ih =>
    intro count hcount
    by_cases hc : is_stablecoin c
    · simp [topAccum, hc, ih count hcount]
    · have hsub : N - count = (N - (count + 1)) + 1 := by omega
      by_cases hbreak : N ≤ count + 1
      · have hN : N - (count + 1) = 0 := by omega
        simp [topAccum, hc, hbreak, hsub, hN]
      · have h1 : count + 1 < N := by omega
        simp [topAccum, hc, hbreak, hsub, ih (count + 1) h1]

/-- `get_top_market_cap` equals the first `N` formatted non-stablecoin
symbols of the response. -/
theorem get_top_market_cap_eq (N : ℕ) (data : List Coin) :
    get_top_market_cap N data
      = ((data.filter (fun c => !is_stablecoin c)).map formatTopSymbol).take N := by
  rcases Nat.eq_zero_or_pos N with hN | hN
  · simp [get_top_market_cap, hN]
  · rw [get_top_market_cap, topAccum_eq N data 0 hN, Nat.sub_zero,
      List.take_take, min_self]

/-- C9 (amended): `get_top_market_cap` returns at most `N` symbols, each the
upper-cased symbol of a non-stablecoin coin of the response with `USDT`
appended; the result is duplicate-free whenever the response's formatted
non-stablecoin symbols are pairwise distinct (the code itself never
dedupes). -/
theorem claim_C9_amended (N : ℕ) (data : List Coin) :
    (get_top_market_cap N data).length ≤ N
      ∧ (∀ s ∈ get_top_market_cap N data,
          ∃ c ∈ data, is_stablecoin c = false ∧ s = formatTopSymbol c)
      ∧ (((data.filter (fun c => !is_stablecoin c)).map formatTopSymbol).Nodup →
          (get_top_market_cap N data).Nodup) := by
  rw [get_top_market_cap_eq]
  refine ⟨?_, ?_, ?_⟩
  · simp [List.length_take]
  · intro s hs
    have hs' := List.take_subset _ _ hs
    obtain ⟨c, hc, rfl⟩ := List.mem_map.mp hs'
    obtain ⟨hcdata, hcstable⟩ := List.mem_filter.mp hc
    exact ⟨c, hcdata, by simpa using hcstable, rfl⟩
  · intro h
    exact h.sublist (List.take_sublist _ _)

/-- C9 witness: on a concrete response with three coins (one a stablecoin)
and `N = 2`, the conclusion holds with the duplicate-freedom hypothesis
discharged by evaluation. -/
theorem claim_C9_amended_witness :
    (get_top_market_cap 2 [⟨"btc".toList, "Bitcoin".toList⟩,
        ⟨"usdc".toList, "USD Coin".toList⟩,
        ⟨"eth".toList, "Ethereum".toList⟩]).length ≤ 2
      ∧ (∀ s ∈ get_top_market_cap 2 [⟨"btc".toList, "Bitcoin".toList⟩,
            ⟨"usdc".toList, "USD Coin".toList⟩,
            ⟨"eth".toList, "Ethereum".toList⟩],
          ∃ c ∈ [⟨"btc".toList, "Bitcoin".toList⟩,
              ⟨"usdc".toList, "USD Coin".toList⟩,
              ⟨"eth".toList, "Ethereum".toList⟩],
            is_stablecoin c = false ∧ s = formatTopSymbol c)
      ∧ (get_top_market_cap 2 [⟨"btc".toList, "Bitcoin".toList⟩,
          ⟨"usdc".toList, "USD Coin".toList⟩,
          ⟨"eth".toList, "Ethereum".toList⟩]).Nodup :=
  ⟨(claim_C9_amended 2 _).1, (claim_C9_amended 2 _).2.1,
    (claim_C9_amended 2 _).2.2 (by decide)⟩

/-- C9 (counterexample): a response in which two coins carry the same
`symbol` field makes `get_top_market_cap` return the same formatted symbol
twice — the code never dedupes, so "never includes a symbol twice" fails
for such a response. -/
theorem claim_C9_counterexample :
    get_top_market_cap 10 [⟨"btc".toList, "Bitcoin".toList⟩,
        ⟨"btc".toList, "Bitcoin Two".toList⟩]
      = ["BTCUSDT".toList, "BTCUSDT".toList]
      ∧ ¬ (get_top_market_cap 10 [⟨"btc".toList, "Bitcoin".toList⟩,
          ⟨"btc".toList, "Bitcoin Two".toList⟩]).Nodup := by
  have h : get_top_market_cap 10 [⟨"btc".toList, "Bitcoin".toList⟩,
      ⟨"btc".toList, "Bitcoin Two".toList⟩]
      = ["BTCUSDT".toList, "BTCUSDT".toList] := by decide
  refine ⟨h, ?_⟩
  rw [h]
  simp

/-- `MARKETCAP_UPDATE_INTERVAL` (`config.py` line 121), in seconds. -/
def MARKETCAP_UPDATE_INTERVAL : ℤ := 3600

/-- The persisted snapshot (`market_cap_tracker.py` lines 75–80):
`{"timestamp": ..., "symbols": [...]}`. -/
structure MarketCapSnapshot where
  timestamp : ℤ
  symbols : List (List Char)

/-- `load_top_market_cap` (`market_cap_tracker.py` lines 88–104): `None`
when the file is absent (or unreadable, the exception path), `None` when
the snapshot is stale (`now - timestamp > MARKETCAP_UPDATE_INTERVAL`),
otherwise the cached symbols. -/
def load_top_market_cap (file : Option MarketCapSnapshot) (now : ℤ) :
    Option (List (List Char)) :=
  match file with
  | none => none
  | some d =>
    if MARKETCAP_UPDATE_INTERVAL < now - d.timestamp then none
    else some d.symbols

/-- `is_top_market_cap` (`market_cap_tracker.py` lines 107–120): load the
cached snapshot; if absent or stale, fall back to a fresh
`get_top_market_cap()` fetch (whose decoded result is the `fetched`
argument; an empty list models a failed fetch, line 69/72); finally
`return symbol in symbols if symbols else False`. -/
def is_top_market_cap (file : Option MarketCapSnapshot) (now : ℤ)
    (fetched : List (List Char)) (symbol : List Char) : Bool :=
  let symbols :=
    match load_top_market_cap file now with
    | some syms => syms
    | none => fetched
  if symbols.isEmpty then false else symbols.contains symbol

/-- C10: when the cached snapshot is absent or stale
(`load_top_market_cap = None`) and the fresh fetch fails (returns `[]`),
`is_top_market_cap` returns `False` for every symbol — the top-market-cap
exclusion fails open. -/
theorem claim_C10_fail_open (file : Option MarketCapSnapshot) (now : ℤ)
    (symbol : List Char) (h : load_top_market_cap file now = none) :
    is_top_market_cap file now [] symbol = false := by
  unfold is_top_market_cap
  rw [h]
  rfl

/-- C10 witness: absent cache file, failed fetch, symbol `"BTCUSDT"`. -/
theorem claim_C10_fail_open_witness :
    is_top_market_cap none 0 [] ("BTCUSDT".toList) = false :=
  claim_C10_fail_open none 0 ("BTCUSDT".toList) rfl

/-! ## String machinery shared by the message processor and the validator -/

/-- Python `\s` / default `str.strip()` whitespace (ASCII). -/
def isPySpace (c : Char) : Bool :=
  c = ' ' || c = '\t' || c = '\n' || c = '\x0b' || c = '\x0c' || c = '\r'

/-- Python `str.strip()`. -/
def pyStrip (l : List Char) : List Char :=
  ((l.dropWhile isPySpace).reverse.dropWhile isPySpace).reverse

/-- Drop an expected literal prefix, returning the remainder on success. -/
def dropPrefixQ (pre l : List Char) : Option (List Char) :=
  match pre, l with
  | [], rest => some rest
  | _ :: _, [] => none
  | p :: ps, c :: cs => if c = p then dropPrefixQ ps cs else none

/-- The value of a digit string. -/
def digitsToNat (ds : List Char) : ℕ :=
  ds.foldl (fun acc c => acc * 10 + (c.toNat - '0'.toNat)) 0

/-- Python `str.endswith`. -/
def endsWith (suf l : List Char) : Bool := suf.reverse.isPrefixOf l.reverse

/-- Python `str.replace(sub, '')` (remove every non-overlapping occurrence,
scanning left to right); fuel-bounded at the input length, which suffices
for non-empty `sub`. -/
def removeAllAux (sub : List Char) : ℕ → List Char → List Char
  | 0, l => l
  | _ + 1, [] => []
  | fuel + 1, c :: t =>
    match dropPrefixQ sub (c :: t) with
    | some rest => removeAllAux sub fuel rest
    | none => c :: removeAllAux sub fuel t

def removeAll (sub l : List Char) : List Char := removeAllAux sub l.length l

/-! ## Message processor sentiment extraction and threshold gate
(`message_processor.py`) -/

/-- Attempt of the regex `Sentiment:\s*([-+]?\d+)%`
(`message_processor.py` line 23) at the current position: the literal,
greedy whitespace, an optional sign, one or more digits, then `%`. -/
def matchSentimentIntAt (l : List Char) : Option ℤ :=
  match dropPrefixQ ("Sentiment:".toList) l with
  | none => none
  | some rest =>
    let r := rest.dropWhile isPySpace
    let (sign, r1) : ℤ × List Char :=
      match r with
      | '+' :: t => (1, t)
      | '-' :: t => (-1, t)
      | _ => (1, r)
    let ds := r1.takeWhile Char.isDigit
    let r2 := r1.dropWhile Char.isDigit
    if ds.isEmpty then none
    else
      match r2 with
      | '%' :: _ => some (sign * (digitsToNat ds : ℤ))
      | _ => none

/-- `re.search` of the pattern above: leftmost matching position. -/
def searchSentimentInt : List Char → Option ℤ
  | [] => none
  | c :: t =>
    match matchSentimentIntAt (c :: t) with
    | some v => some v
    | none => searchSentimentInt t

/-- `MessageProcessor.extract_sentiment` (`message_processor.py`
lines 20–28): the matched integer as a Python float, or `0` when the
pattern is absent. -/
def mp_extract_sentiment (content : List Char) : Frac :=
  match searchSentimentInt content with
  | some v => flDouble ⟨v, 1⟩
  | none => ⟨0, 1⟩

/-- `TRADE_SENTIMENT_THRESHOLD` (`config.py` line 118). -/
def TRADE_SENTIMENT_THRESHOLD : Frac := ⟨50, 1⟩

/-- The trade gate of `MessageProcessor.process_message`
(`message_processor.py` lines 119–127): a trade is initiated iff
`abs(sentiment) >= TRADE_SENTIMENT_THRESHOLD`, with direction
`LONG if sentiment > 0 else SHORT`. -/
def mp_trade_decision (sentiment : Frac) : Option Direction :=
  if Frac.le TRADE_SENTIMENT_THRESHOLD (Frac.abs sentiment) then
    some (if Frac.lt ⟨0, 1⟩ sentiment then .LONG else .SHORT)
  else none

/-- Extraction followed by the gate, for a whole message content. -/
def mp_message_decision (content : List Char) : Option Direction :=
  mp_trade_decision (mp_extract_sentiment content)

/-! ## Symbol canonicalization -/

/-- The live pipeline's canonicalization
(`message_processor.py` lines 70–71):
`if "USDT" not in symbol: symbol += "USDT"` — a substring test and an
append, with no case folding. -/
def mp_canonicalize (symbol : List Char) : List Char :=
  if infixOf ("USDT".toList) symbol then symbol else symbol ++ "USDT".toList

/-- `symbol_map` of `SentimentValidator._normalize_symbol`
(`sentiment_validator.py` lines 273–282). -/
def SYMBOL_NAME_MAP : List (List Char × List Char) :=
  [("BITCOIN".toList, "BTC".toList), ("ETHEREUM".toList, "ETH".toList),
   ("BINANCE".toList, "BNB".toList), ("RIPPLE".toList, "XRP".toList),
   ("CARDANO".toList, "ADA".toList), ("SOLANA".toList, "SOL".toList),
   ("DOGECOIN".toList, "DOGE".toList), ("POLYGON".toList, "MATIC".toList)]

/-- `SentimentValidator._normalize_symbol` (`sentiment_validator.py`
lines 264–294): `None` for inputs shorter than 2 characters; strip `$`/`#`
and whitespace; upper-case; map common full names to tickers; append
`USDT` unless the result already ends with `USDT`/`USDC`/`BUSD`. -/
def sv_normalize_symbol (symbol : List Char) : Option (List Char) :=
  if symbol.length < 2 then none
  else
    let s := pyStrip (removeAll ['#'] (removeAll ['$'] symbol))
    let u := s.map Char.toUpper
    let sym2 :=
      match SYMBOL_NAME_MAP.find? (fun p => p.1 == u) with
      | some p => p.2
      | none => u
    if endsWith ("USDT".toList) sym2 || endsWith ("USDC".toList) sym2
        || endsWith ("BUSD".toList) sym2 then
      some sym2
    else some (sym2 ++ "USDT".toList)

/-- C8 (counterexample): the live pipeline's canonicalization
(`message_processor.py` line 70–71) maps the extracted ticker `"sol"` to
`"solUSDT"`, not to the claimed `"SOLUSDT"` — it never upper-cases. -/
theorem claim_C8_counterexample :
    mp_canonicalize ("sol".toList) = "solUSDT".toList
      ∧ mp_canonicalize ("sol".toList) ≠ "SOLUSDT".toList := by
  refine ⟨by decide, by decide⟩

/-- C8 (amended): the live pipeline's canonicalization appends `USDT`
without case folding (`"sol"` ↦ `"solUSDT"`, `"ETHUSDT"` unchanged);
it is the hardened validator's `_normalize_symbol` that maps `"sol"` to
`"SOLUSDT"` (and leaves `"ETHUSDT"` unchanged, no double suffix). -/
theorem claim_C8_amended :
    mp_canonicalize ("sol".toList) = "solUSDT".toList
      ∧ mp_canonicalize ("ETHUSDT".toList) = "ETHUSDT".toList
      ∧ sv_normalize_symbol ("sol".toList) = some ("SOLUSDT".toList)
      ∧ sv_normalize_symbol ("ETHUSDT".toList) = some ("ETHUSDT".toList) := by
  refine ⟨by decide, by decide, by decide, by decide⟩

/-! ## Hardened validator: sentiment extraction
(`sentiment_validator.py`) -/

/-- Attempt of `SENTIMENT_PATTERN = Sentiment:\s*([-+]?\d+(?:\.\d+)?)%`
(`sentiment_validator.py` line 42) at the current position.  The optional
fraction is consumed only when a `.` directly followed by a digit is
present (matching the regex's backtracking), and `%` must follow. -/
def matchSentimentFloatAt (l : List Char) : Option Frac :=
  match dropPrefixQ ("Sentiment:".toList) l with
  | none => none
  | some rest =>
    let r := rest.dropWhile isPySpace
    let signAndRest : ℤ × List Char :=
      match r with
      | '+' :: t => (1, t)
      | '-' :: t => (-1, t)
      | _ => (1, r)
    let sign := signAndRest.1
    let r1 := signAndRest.2
    let ds := r1.takeWhile Char.isDigit
    let r2 := r1.dropWhile Char.isDigit
    if ds.isEmpty then none
    else
      let valAndRest : ℤ × ℤ × List Char :=
        match r2 with
        | '.' :: t =>
          let fs := t.takeWhile Char.isDigit
          if fs.isEmpty then ((digitsToNat ds : ℤ), 1, r2)
          else
            (((digitsToNat ds * 10 ^ fs.length + digitsToNat fs : ℕ) : ℤ),
              ((10 ^ fs.length : ℕ) : ℤ), t.dropWhile Char.isDigit)
        | _ => ((digitsToNat ds : ℤ), 1, r2)
      match valAndRest.2.2 with
      | '%' :: _ => some (flDouble ⟨sign * valAndRest.1, valAndRest.2.1⟩)
      | _ => none

/-- `re.search` of `SENTIMENT_PATTERN`: leftmost matching position. -/
def searchSentimentFloat : List Char → Option Frac
  | [] => none
  | c :: t =>
    match matchSentimentFloatAt (c :: t) with
    | some v => some v
    | none => searchSentimentFloat t

/-- `SentimentValidator._extract_and_validate_sentiment`
(`sentiment_validator.py` lines 173–203): extract the sentiment value
(`float(match.group(1))`), reject values outside `[-100, 100]` with
`(None, 0.0)`, and otherwise assign a magnitude-based confidence:
`> 95 → 0.5`, `> 80 → 0.7`, `< 5 → 0.6`, else `1.0`. -/
def sv_extract_and_validate_sentiment (response : List Char) :
    Option Frac × Frac :=
  match searchSentimentFloat response with
  | none => (none, ⟨0, 1⟩)
  | some v =>
    if Frac.le ⟨-100, 1⟩ v && Frac.le v ⟨100, 1⟩ then
      let a := Frac.abs v
      let conf :=
        if Frac.lt ⟨95, 1⟩ a then flDouble ⟨5, 10⟩
        else if Frac.lt ⟨80, 1⟩ a then flDouble ⟨7, 10⟩
        else if Frac.lt a ⟨5, 1⟩ then flDouble ⟨6, 10⟩
        else ⟨1, 1⟩
      (some v, conf)
    else (none, ⟨0, 1⟩)

/-- The absolute value commutes with the rational interpretation (for a
positive denominator). -/
theorem Frac.toRat_abs (a : Frac) (ha : 0 < a.den) :
    (Frac.abs a).toRat = |a.toRat| := by
  unfold Frac.abs Frac.toRat
  rw [abs_div, abs_of_pos (show (0 : ℚ) < (a.den : ℚ) by exact_mod_cast ha)]
  congr 1
  push_cast [Int.cast_natAbs]
  rfl

/-- C4: the trade gate fires iff the parsed sentiment's absolute value
reaches the threshold 50; on whole message contents, sentiment `49` yields
no trade while `50` and `-50` yield a LONG and a SHORT trade respectively;
and the hardened validator rejects the out-of-range sentiment `101`
(returning `(None, 0.0)`) while accepting the boundary value `100`. -/
theorem claim_C4_sentiment_threshold_gate :
    (∀ s : Frac, 0 < s.den →
        ((mp_trade_decision s).isSome = true ↔ 50 ≤ |s.toRat|))
      ∧ mp_message_decision ("Sentiment: 49%".toList) = none
      ∧ mp_message_decision ("Sentiment: 50%".toList) = some .LONG
      ∧ mp_message_decision ("Sentiment: -50%".toList) = some .SHORT
      ∧ sv_extract_and_validate_sentiment ("Sentiment: 101%".toList)
          = (none, ⟨0, 1⟩)
      ∧ (sv_extract_and_validate_sentiment ("Sentiment: 100%".toList)).1.isSome
          = true := by
  refine ⟨?_, by decide, by decide, by decide, by decide, by decide⟩
  intro s hs
  have key : Frac.le TRADE_SENTIMENT_THRESHOLD (Frac.abs s) = true
      ↔ 50 ≤ |s.toRat| := by
    rw [Frac.le_iff_toRat _ _ (by decide) (show 0 < (Frac.abs s).den from hs),
      Frac.toRat_abs s hs]
    have h50 : Frac.toRat TRADE_SENTIMENT_THRESHOLD = 50 := by
      unfold TRADE_SENTIMENT_THRESHOLD Frac.toRat
      norm_num
    rw [h50]
  have hiso : (mp_trade_decision s).isSome
      = Frac.le TRADE_SENTIMENT_THRESHOLD (Frac.abs s) := by
    unfold mp_trade_decision
    split
    · next hcond => simp [hcond]
    · next hcond => simp [eq_false_of_ne_true hcond]
  rw [hiso]
  exact key

/-- C4 witness: the gate applied to the concrete parsed sentiment `75`. -/
theorem claim_C4_sentiment_threshold_gate_witness :
    (mp_trade_decision ⟨75, 1⟩).isSome = true ↔ 50 ≤ |Frac.toRat ⟨75, 1⟩| :=
  claim_C4_sentiment_threshold_gate.1 ⟨75, 1⟩ (by decide)

/-! ## Hardened validator: security patterns
(`sentiment_validator.py` lines 47–58, 166–171)

Each regex of `SUSPICIOUS_PATTERNS` is compiled with `re.IGNORECASE`, which
for these ASCII patterns is equivalent to matching the lower-case pattern
against the lower-cased text.  `.` does not match a newline (no `DOTALL`),
while `\s` does. -/

/-- `.*?>` — a `>` reachable without crossing a newline. -/
def seekCloseTag : List Char → Bool
  | [] => false
  | c :: t => if c = '>' then true else if c = '\n' then false else seekCloseTag t

/-- `.*?target` — an occurrence of `target` reachable without crossing a
newline. -/
def seekNoNewline (target : List Char) : List Char → Bool
  | [] => false
  | c :: t =>
    if target.isPrefixOf (c :: t) then true
    else if c = '\n' then false
    else seekNoNewline target t

/-- `\s+target` at the current position: at least one whitespace character,
then greedily all whitespace, then the (non-whitespace-initial) target. -/
def wsPlusThen (target : List Char) (l : List Char) : Bool :=
  match l with
  | [] => false
  | c :: t => isPySpace c && target.isPrefixOf (t.dropWhile isPySpace)

/-- `.*\s+target` starting inside the current suffix: scan for a
`\s+target` occurrence crossing only non-newline characters. -/
def seekWsThenTarget (target : List Char) : List Char → Bool
  | [] => false
  | c :: t =>
    wsPlusThen target (c :: t) || (decide (c ≠ '\n') && seekWsThenTarget target t)

/-- `\s+.*\s+from` after the literal `select`: a leading whitespace block of
length ≥ 1 (which `\s+` and, for its spaces, `.*` may share), then either
`from` directly (block length ≥ 2 supplies both whitespace groups) or a
later `\s+from` reachable across non-newline characters. -/
def sqlSelectTail (l : List Char) : Bool :=
  let w := l.takeWhile isPySpace
  let r := l.dropWhile isPySpace
  decide (1 ≤ w.length)
    && ((decide (2 ≤ w.length) && ("from".toList).isPrefixOf r)
        || seekWsThenTarget ("from".toList) r)

/-- One position of the `SUSPICIOUS_PATTERNS` check
(`sentiment_validator.py` lines 47–58), on lower-cased text:
`<script.*?>`, `javascript:`, `data:.*?base64`, `eval\s*\(`, `exec\s*\(`,
`import\s+`, `__.*__`, `SELECT\s+.*\s+FROM`, `DROP\s+TABLE`,
`DELETE\s+FROM`. -/
def matchSuspiciousAt (l : List Char) : Bool :=
  (match dropPrefixQ ("<script".toList) l with
    | some r => seekCloseTag r
    | none => false)
  || ("javascript:".toList).isPrefixOf l
  || (match dropPrefixQ ("data:".toList) l with
    | some r => seekNoNewline ("base64".toList) r
    | none => false)
  || (match dropPrefixQ ("eval".toList) l with
    | some r => (match r.dropWhile isPySpace with
      | '(' :: _ => true
      | _ => false)
    | none => false)
  || (match dropPrefixQ ("exec".toList) l with
    | some r => (match r.dropWhile isPySpace with
      | '(' :: _ => true
      | _ => false)
    | none => false)
  || (match dropPrefixQ ("import".toList) l with
    | some (c :: _) => isPySpace c
    | _ => false)
  || (match dropPrefixQ ("__".toList) l with
    | some r => seekNoNewline ("__".toList) r
    | none => false)
  || (match dropPrefixQ ("select".toList) l with
    | some r => sqlSelectTail r
    | none => false)
  || (match dropPrefixQ ("drop".toList) l with
    | some r => wsPlusThen ("table".toList) r
    | none => false)
  || (match dropPrefixQ ("delete".toList) l with
    | some r => wsPlusThen ("from".toList) r
    | none => false)

/-- `re.search` over all of `SUSPICIOUS_PATTERNS`: some pattern matches at
some position. -/
def scanSuspicious : List Char → Bool
  | [] => false
  | c :: t => matchSuspiciousAt (c :: t) || scanSuspicious t

/-- `SentimentValidator._check_security_violations`
(`sentiment_validator.py` lines 166–171), as the boolean "some suspicious
pattern matched". -/
def sv_check_security_violations (response : List Char) : Bool :=
  scanSuspicious (response.map Char.toLower)

/-- No suspicious pattern starts at an `'a'`. -/
theorem matchSuspiciousAt_a (t : List Char) :
    matchSuspiciousAt ('a' :: t) = false := rfl

/-- A run of `'a'`s contributes nothing to the scan. -/
theorem scanSuspicious_replicate_append (n : ℕ) (rest : List Char) :
    scanSuspicious (List.replicate n 'a' ++ rest) = scanSuspicious rest := by
  induction n with
  | zero => rw [List.replicate_zero, List.nil_append]
  | succ n ih =>
    rw [List.replicate_succ, List.cons_append]
    show (matchSuspiciousAt ('a' :: (List.replicate n 'a' ++ rest))
        || scanSuspicious (List.replicate n 'a' ++ rest)) = scanSuspicious rest
    rw [matchSuspiciousAt_a, Bool.false_or, ih]

/-- Scanning past a prefix none of whose suffix positions matches. -/
theorem scanSuspicious_append_of_no_match (p rest : List Char)
    (h : ∀ s ∈ p.tails, matchSuspiciousAt (s ++ rest) = false) :
    scanSuspicious (p ++ rest) = scanSuspicious rest := by
  induction p with
  | nil => rw [List.nil_append]
  | cons c t ih =>
    rw [List.cons_append]
    show (matchSuspiciousAt (c :: (t ++ rest)) || scanSuspicious (t ++ rest))
        = scanSuspicious rest
    have h1 : matchSuspiciousAt ((c :: t) ++ rest) = false :=
      h (c :: t) (by rw [List.tails_cons]; exact List.mem_cons_self _ _)
    rw [List.cons_append] at h1
    rw [h1, Bool.false_or]
    exact ih fun s hs =>
      h s (by rw [List.tails_cons]; exact List.mem_cons_of_mem _ hs)

/-- A run of `'a'`s alone never triggers the scan. -/
theorem scanSuspicious_replicate (n : ℕ) :
    scanSuspicious (List.replicate n 'a') = false := by
  have h := scanSuspicious_replicate_append n []
  rw [List.append_nil] at h
  rw [h]
  rfl

/-! ## Hardened validator: symbol and explanation extraction -/

/-- ASCII `\w`. -/
def isWordChar (c : Char) : Bool := c.isAlphanum || c = '_'

/-- The character class of `COINS_PATTERN = Coins:\s*([\w, /\-N/A]+)`
(`sentiment_validator.py` line 43): word characters, comma, space, slash,
hyphen (`N` and `A` are already word characters). -/
def svCoinsClass (c : Char) : Bool :=
  isWordChar c || c = ',' || c = ' ' || c = '/' || c = '-'

/-- The group of `Coins:\s*([\w, /\-N/A]+)` after the literal: greedy `\s*`
then at least one class character; when the character after the whitespace
block is outside the class, the regex backtracks into the block's trailing
space (a space is both `\s` and a class character), yielding the group
`" "`. -/
def coinsGroupAt (rest : List Char) : Option (List Char) :=
  let w := rest.takeWhile isPySpace
  let r := rest.dropWhile isPySpace
  match r with
  | c :: _ =>
    if svCoinsClass c then some (r.takeWhile svCoinsClass)
    else if w.contains ' ' then some [' ']
    else none
  | [] => if w.contains ' ' then some [' '] else none

/-- `re.search(COINS_PATTERN)`: leftmost position where the literal and a
nonempty group match. -/
def searchCoins : List Char → Option (List Char)
  | [] => none
  | c :: t =>
    match
      (match dropPrefixQ ("Coins:".toList) (c :: t) with
        | some rest => coinsGroupAt rest
        | none => none) with
    | some g => some g
    | none => searchCoins t

/-- `VALID_SYMBOL_PATTERN = ^[A-Z]{2,10}(USDT|USDC|BUSD)?$`
(`sentiment_validator.py` line 41): 2–10 capital letters followed by an
optional quote suffix.  Since the suffixes are themselves capital letters,
a string matches iff it is all capitals and either its whole length is in
`[2, 10]` or it ends with a suffix and the remaining length is in
`[2, 10]`. -/
def isUpperAZ (c : Char) : Bool := decide ('A' ≤ c) && decide (c ≤ 'Z')

def validSymbolPattern (s : List Char) : Bool :=
  s.all isUpperAZ
    && ((decide (2 ≤ s.length) && decide (s.length ≤ 10))
      || ((endsWith ("USDT".toList) s || endsWith ("USDC".toList) s
            || endsWith ("BUSD".toList) s)
          && decide (2 ≤ s.length - 4) && decide (s.length - 4 ≤ 10)))

/-- `KNOWN_SYMBOLS` (`sentiment_validator.py` lines 61–66). -/
def KNOWN_SYMBOLS : List (List Char) :=
  ["BTC".toList, "ETH".toList, "BNB".toList, "XRP".toList, "ADA".toList,
   "SOL".toList, "DOT".toList, "DOGE".toList, "AVAX".toList, "SHIB".toList,
   "MATIC".toList, "UNI".toList, "LINK".toList, "ATOM".toList, "LTC".toList,
   "BCH".toList, "FTT".toList, "NEAR".toList, "ALGO".toList, "MANA".toList,
   "SAND".toList, "CRO".toList, "APE".toList, "FLOW".toList, "ICP".toList,
   "VET".toList, "HBAR".toList, "FIL".toList, "EGLD".toList, "XTZ".toList,
   "THETA".toList, "AXS".toList, "EOS".toList, "AAVE".toList, "BSV".toList,
   "GRT".toList, "KCS".toList, "RUNE".toList, "XLM".toList, "KLAY".toList]

/-- The per-symbol loop of `_extract_and_validate_symbols`
(`sentiment_validator.py` lines 228–250): normalize (skipping symbols the
normalizer rejects, with no confidence entry), reject wrong formats with a
`0.0` confidence entry, and otherwise grade `1.0` for known base symbols
(`normalized.replace('USDT','').replace('USDC','').replace('BUSD','')`)
and `0.7` for unknown ones, accumulating the normalized symbol. -/
def svSymbolsLoop : List (List Char) → List (List Char) × List Frac
  | [] => ([], [])
  | sym :: rest =>
    match sv_normalize_symbol sym with
    | none => svSymbolsLoop rest
    | some normalized =>
      if validSymbolPattern normalized then
        let base := removeAll ("BUSD".toList)
          (removeAll ("USDC".toList) (removeAll ("USDT".toList) normalized))
        let conf : Frac :=
          if KNOWN_SYMBOLS.contains base then ⟨1, 1⟩ else flDouble ⟨7, 10⟩
        ((svSymbolsLoop rest).1.cons normalized, (svSymbolsLoop rest).2.cons conf)
      else
        ((svSymbolsLoop rest).1, (svSymbolsLoop rest).2.cons ⟨0, 1⟩)

/-- Python `sum` of a float list. -/
def sumFloats (l : List Frac) : Frac := l.foldl flAdd ⟨0, 1⟩

/-- `SentimentValidator._extract_and_validate_symbols`
(`sentiment_validator.py` lines 205–262): find the Coins group (else
`(None, 0.0)`); strip it; `N/A`/`NONE`/`NULL`/empty yields `([], 1.0)`;
otherwise split on commas, strip+upper-case each part, drop empties and
`N/A`, cap at `max_symbols = 10`, run the per-symbol loop, and average the
confidence scores (or `0.0` when there are none). -/
def sv_extract_and_validate_symbols (response : List Char) :
    Option (List (List Char)) × Frac :=
  match searchCoins response with
  | none => (none, ⟨0, 1⟩)
  | some g =>
    let raw := pyStrip g
    let rawU := raw.map Char.toUpper
    if rawU = "N/A".toList || rawU = "NONE".toList || rawU = "NULL".toList
        || rawU = [] then
      (some [], ⟨1, 1⟩)
    else
      let parts0 := (raw.splitOn ',').map fun s => (pyStrip s).map Char.toUpper
      let parts1 := parts0.filter fun s => !s.isEmpty && !(s == "N/A".toList)
      let parts := parts1.take 10
      let vsCs := svSymbolsLoop parts
      let conf : Frac :=
        if vsCs.2.isEmpty then ⟨0, 1⟩
        else flDiv (sumFloats vsCs.2) ⟨vsCs.2.length, 1⟩
      (some vsCs.1, conf)

/-- `re.search(EXPLANATION_PATTERN)` with
`EXPLANATION_PATTERN = Explanation:\s*(.+)` compiled with `DOTALL`
(`sentiment_validator.py` line 44): the leftmost `Explanation:` literal
followed by at least one character.  Since the code only uses
`match.group(1).strip()` and the group is the remainder minus some leading
whitespace, the stripped group equals the stripped remainder. -/
def searchExplanation : List Char → Option (List Char)
  | [] => none
  | c :: t =>
    match dropPrefixQ ("Explanation:".toList) (c :: t) with
    | some (r :: rs) => some (r :: rs)
    | _ => searchExplanation t

/-- `SentimentValidator._validate_explanation`
(`sentiment_validator.py` lines 296–310): `0.0` with no match, `0.3` for a
stripped explanation shorter than 20 characters, `0.7` for one longer than
1000, else `1.0`. -/
def sv_validate_explanation (response : List Char) : Frac :=
  match searchExplanation response with
  | none => ⟨0, 1⟩
  | some rest =>
    let expl := pyStrip rest
    if expl.length < 20 then flDouble ⟨3, 10⟩
    else if 1000 < expl.length then flDouble ⟨7, 10⟩
    else ⟨1, 1⟩

/-! ## Hardened validator: `validate_response` -/

/-- `ValidationResult` (`sentiment_validator.py` lines 13–19). -/
inductive ValidationResult where
  | VALID
  | INVALID_FORMAT
  | INVALID_SENTIMENT
  | INVALID_SYMBOLS
  | NO_DATA
deriving DecidableEq, Repr

/-- `ValidatedSentiment` (`sentiment_validator.py` lines 22–31).  Error
messages are modelled by their fixed prefix (the source interpolates the
offending pattern or the confidence into some of them). -/
structure ValidatedSentiment where
  is_valid : Bool
  symbols : List (List Char)
  sentiment : Option Frac
  confidence : Frac
  validation_result : ValidationResult
  error_message : List Char
  raw_response : List Char
deriving DecidableEq, Repr

/-- Default `min_confidence=0.7` (`sentiment_validator.py` line 68). -/
def sv_min_confidence : Frac := flDouble ⟨7, 10⟩

/-- `SentimentValidator._determine_error_type`
(`sentiment_validator.py` lines 312–325). -/
def sv_determine_error_type (sentiment : Option Frac)
    (symbols : Option (List (List Char))) (confidence : Frac) :
    ValidationResult :=
  if sentiment.isNone
      && (match symbols with | none => true | some l => l.isEmpty) then
    .NO_DATA
  else if sentiment.isNone then .INVALID_SENTIMENT
  else if symbols.isNone then .INVALID_SYMBOLS
  else if Frac.lt confidence sv_min_confidence then .INVALID_FORMAT
  else .VALID

/-- `SentimentValidator._generate_error_message`
(`sentiment_validator.py` lines 327–336), modulo the interpolated
confidence value. -/
def sv_generate_error_message (vr : ValidationResult) : List Char :=
  match vr with
  | .NO_DATA => "No valid sentiment or symbols found in response".toList
  | .INVALID_SENTIMENT => "Invalid or missing sentiment value".toList
  | .INVALID_SYMBOLS => "Invalid or missing cryptocurrency symbols".toList
  | .INVALID_FORMAT => "Response format invalid".toList
  | .VALID => "Unknown validation error".toList

/-- `SentimentValidator.validate_response`
(`sentiment_validator.py` lines 81–164): reject empty input as `NO_DATA`;
truncate to 10000 characters; hard-reject on any suspicious pattern with
`INVALID_FORMAT` and the security-violation message; otherwise extract
sentiment, symbols and explanation confidence (`require_explanation`
defaults to `True`), average the three confidences, and declare the
response valid iff sentiment and symbols were both extracted and the
overall confidence reaches `min_confidence`. -/
def sv_validate_response (llm_response : List Char) : ValidatedSentiment :=
  if llm_response.isEmpty then
    { is_valid := false, symbols := [], sentiment := none,
      confidence := ⟨0, 1⟩, validation_result := .NO_DATA,
      error_message := "Empty or invalid response".toList,
      raw_response := llm_response.take 500 }
  else
    let resp :=
      if 10000 < llm_response.length then llm_response.take 10000
      else llm_response
    if sv_check_security_violations resp then
      { is_valid := false, symbols := [], sentiment := none,
        confidence := ⟨0, 1⟩, validation_result := .INVALID_FORMAT,
        error_message := "Security violation detected".toList,
        raw_response := resp.take 200 }
    else
      let sentPair := sv_extract_and_validate_sentiment resp
      let symPair := sv_extract_and_validate_symbols resp
      let econf := sv_validate_explanation resp
      let overall := flDiv (flAdd (flAdd sentPair.2 symPair.2) econf) ⟨3, 1⟩
      let valid := sentPair.1.isSome && symPair.1.isSome
        && Frac.le sv_min_confidence overall
      if valid then
        { is_valid := true, symbols := symPair.1.getD [],
          sentiment := sentPair.1, confidence := overall,
          validation_result := .VALID, error_message := [],
          raw_response := resp.take 500 }
      else
        { is_valid := false, symbols := symPair.1.getD [],
          sentiment := sentPair.1, confidence := overall,
          validation_result := sv_determine_error_type sentPair.1 symPair.1 overall,
          error_message :=
            sv_generate_error_message
              (sv_determine_error_type sentPair.1 symPair.1 overall),
          raw_response := resp.take 500 }

/-- C7 (amended): for every input whose TRUNCATED form (the first 10000
characters) contains a suspicious pattern, `validate_response` hard-rejects
with `INVALID_FORMAT`, the security-violation error, no symbols and no
sentiment.  (In the shallow embedding all functions are total, matching the
"never raises" clause.) -/
theorem claim_C7_security_rejection_amended (l : List Char)
    (h : sv_check_security_violations
        (if 10000 < l.length then l.take 10000 else l) = true) :
    (sv_validate_response l).is_valid = false
      ∧ (sv_validate_response l).symbols = []
      ∧ (sv_validate_response l).sentiment = none
      ∧ (sv_validate_response l).validation_result = .INVALID_FORMAT
      ∧ (sv_validate_response l).error_message
          = "Security violation detected".toList := by
  cases l with
  | nil => exact absurd h (by decide)
  | cons c t =>
    simp only [sv_validate_response, List.isEmpty_cons, Bool.false_eq_true,
      if_false]
    rw [if_pos h]
    exact ⟨rfl, rfl, rfl, rfl, rfl⟩

/-- C7 witness: the script-tag input itself (25 characters, untruncated) is
hard-rejected. -/
theorem claim_C7_security_rejection_witness :
    (sv_validate_response ("<script>alert(1)</script>".toList)).is_valid = false
      ∧ (sv_validate_response ("<script>alert(1)</script>".toList)).symbols = []
      ∧ (sv_validate_response ("<script>alert(1)</script>".toList)).sentiment
          = none
      ∧ (sv_validate_response
          ("<script>alert(1)</script>".toList)).validation_result
          = .INVALID_FORMAT
      ∧ (sv_validate_response ("<script>alert(1)</script>".toList)).error_message
          = "Security violation detected".toList :=
  claim_C7_security_rejection_amended ("<script>alert(1)</script>".toList)
    (by decide)

/-- The well-formed 40-character head of the counterexample response. -/
def cexPrefix : List Char := "Coins: BTC\nSentiment: 50%\n\nExplanation: ".toList

/-- The suspicious tail of the counterexample response. -/
def cexTail : List Char := "<script>alert(1)</script>".toList

/-- The first 10000 characters of the counterexample response: the
well-formed head padded with `'a'`s inside the Explanation. -/
def cexBody : List Char := cexPrefix ++ List.replicate 9960 'a'

/-- The counterexample response: 10025 characters whose script tag sits
entirely beyond the 10000-character truncation point. -/
def cexC7 : List Char := cexPrefix ++ (List.replicate 9960 'a' ++ cexTail)

theorem cexC7_length : cexC7.length = 10025 := by
  unfold cexC7
  rw [List.length_append, List.length_append, List.length_replicate,
    show cexPrefix.length = 40 from rfl, show cexTail.length = 25 from rfl]

theorem cexC7_truncate :
    (if 10000 < cexC7.length then cexC7.take 10000 else cexC7) = cexBody := by
  rw [cexC7_length, if_pos (by norm_num)]
  unfold cexC7 cexBody
  rw [← List.append_assoc]
  exact List.take_left' (by
    rw [List.length_append, List.length_replicate,
      show cexPrefix.length = 40 from rfl])

/-- The truncated body contains no suspicious pattern. -/
theorem cexBody_security : sv_check_security_violations cexBody = false := by
  unfold sv_check_security_violations cexBody
  rw [List.map_append, List.map_replicate,
    show Char.toLower 'a' = 'a' from rfl,
    scanSuspicious_append_of_no_match _ _ (by decide),
    scanSuspicious_replicate]

/-- The full counterexample response does contain a suspicious pattern
(the `<script.*?>` of its tail). -/
theorem cexC7_suspicious : sv_check_security_violations cexC7 = true := by
  unfold sv_check_security_violations cexC7
  rw [List.map_append, List.map_append, List.map_replicate,
    show Char.toLower 'a' = 'a' from rfl,
    scanSuspicious_append_of_no_match _ _ (by decide),
    scanSuspicious_replicate_append]
  decide

theorem dropWhile_replicate_a (n : ℕ) :
    List.dropWhile isPySpace (List.replicate n 'a') = List.replicate n 'a' := by
  cases n with
  | zero => rfl
  | succ n =>
    rw [List.replicate_succ, List.dropWhile_cons]
    simp [show isPySpace 'a' = false from rfl]

theorem cexBody_searchExplanation :
    searchExplanation cexBody = some (' ' :: List.replicate 9960 'a') := rfl

theorem cexBody_explanation :
    sv_validate_explanation cexBody = flDouble ⟨7, 10⟩ := by
  unfold sv_validate_explanation
  rw [cexBody_searchExplanation]
  have hstrip : pyStrip (' ' :: List.replicate 9960 'a')
      = List.replicate 9960 'a' := by
    unfold pyStrip
    rw [List.dropWhile_cons]
    simp only [show isPySpace ' ' = true from rfl, if_true]
    rw [dropWhile_replicate_a, List.reverse_replicate, dropWhile_replicate_a,
      List.reverse_replicate]
  simp only [hstrip, List.length_replicate]
  norm_num

set_option maxRecDepth 40000 in
/-- C7 (counterexample): the response `cexC7` contains
`<script>alert(1)</script>` (the security check itself flags the full
text), yet `validate_response` ACCEPTS it — `is_valid = True` with
sentiment `50` and symbol `BTCUSDT` — because the truncation to 10000
characters (applied BEFORE the security check) cuts the script tag off.
This falsifies "rejected ... for a pattern anywhere in the text". -/
theorem claim_C7_counterexample :
    sv_check_security_violations cexC7 = true
      ∧ (sv_validate_response cexC7).is_valid = true
      ∧ (sv_validate_response cexC7).sentiment = some (flDouble ⟨50, 1⟩)
      ∧ (sv_validate_response cexC7).symbols = ["BTCUSDT".toList] := by
  refine ⟨cexC7_suspicious, ?_, ?_, ?_⟩ <;>
    (simp only [sv_validate_response, show cexC7.isEmpty = false from rfl,
      Bool.false_eq_true, if_false]
     rw [cexC7_truncate, cexBody_security]
     simp only [Bool.false_eq_true, if_false]
     rw [cexBody_explanation]
     decide)

end CryptoPulse
